import Mathlib

/-!
Shallow embedding of the caching / fetching / aggregation core of the
8-byte-portfolio-dashboard repository (TypeScript, Next.js).

Conventions of the embedding:
* JS numbers are rationals; `JSNum := Option ℚ` where `none` models `NaN`
  (the only non-finite value reachable in the modelled code paths).
* A JS `Map` keyed by strings is an association list; `Map.set` replaces the
  value of an existing key in place and otherwise appends, `Map.get` returns
  the stored value or `undefined` (here `Option`).
* Timestamps are integers (milliseconds since epoch, as in `Date.now()`).
* File reads are modelled by `FileRead`: the file may be missing (read throws),
  empty (content trims to the empty string), unparsable (`JSON.parse` throws),
  or parsed into a document.
* Network calls are oracles in a `NetEnv` record: `none` models any network,
  HTTP-status or body-parse failure (all are caught at the fetch boundary).
-/

/-- JS `Map.get`: value of the first (unique) entry with the key. -/
def mapGet {α : Type} : List (String × α) → String → Option α
  | [], _ => none
  | p :: rest, k => if p.1 == k then some p.2 else mapGet rest k

/-- JS `Map.set`: replace the value in place if the key is present, else append. -/
def mapSet {α : Type} : List (String × α) → String → α → List (String × α)
  | [], k, v => [(k, v)]
  | p :: rest, k, v => if p.1 == k then (k, v) :: rest else p :: mapSet rest k v

/-- JS `Map.has`. -/
def mapHas {α : Type} (m : List (String × α)) (k : String) : Bool :=
  (mapGet m k).isSome

/-- JS `[...new Set(xs)]`: deduplicate keeping first occurrences in order. -/
def jsSetDedup (xs : List String) : List String :=
  xs.foldl (fun acc x => if acc.contains x then acc else acc ++ [x]) []

/-- JS string truthiness: only the empty string is falsy. -/
def truthyStr (s : String) : Bool := !(s == "")

/-- JS `a || b` for a possibly-undefined string `a` (`x?.f || b` idiom). -/
def jsOrStr (a : Option String) (b : String) : String :=
  match a with
  | some s => if s == "" then b else s
  | none => b

/-- Value of a digit list in base 10. -/
def natOfDigits (l : List Char) : Nat :=
  l.foldl (fun n c => 10 * n + (c.toNat - 48)) 0

/-- JS `parseFloat`, restricted to the decimal forms that occur in the vendor
data: optional leading whitespace, optional sign, digits with an optional
fraction part; the longest such prefix is parsed, and `none` models `NaN`
(no digits at all). Exponent and `Infinity` forms do not occur and are
omitted. -/
def parseFloatQ (s : String) : Option ℚ :=
  let cs := s.toList.dropWhile (fun c => c.isWhitespace)
  let sign : ℚ := match cs with
    | '-' :: _ => -1
    | _ => 1
  let cs1 := match cs with
    | '-' :: rest => rest
    | '+' :: rest => rest
    | _ => cs
  let intPart := cs1.takeWhile Char.isDigit
  let cs2 := cs1.dropWhile Char.isDigit
  let fracPart := match cs2 with
    | '.' :: rest => rest.takeWhile Char.isDigit
    | _ => []
  if intPart.isEmpty && fracPart.isEmpty then none
  else some (sign * ((natOfDigits intPart : ℚ)
    + (natOfDigits fracPart : ℚ) / (10 : ℚ) ^ fracPart.length))

/-- JS numbers in the modelled paths: `none` models `NaN`. -/
abbrev JSNum := Option ℚ

/-- Lifted multiplication by a finite number (`NaN * q = NaN`). -/
def jmulQ (x : JSNum) (q : ℚ) : JSNum := x.map (· * q)

/-- Lifted subtraction of a finite number (`NaN - q = NaN`). -/
def jsubQ (x : JSNum) (q : ℚ) : JSNum := x.map (· - q)

/-- Lifted division by a finite number; division by zero is guarded in every
modelled code path, `none` propagates `NaN`. -/
def jdivQ (x : JSNum) (q : ℚ) : JSNum :=
  if q = 0 then none else x.map (· / q)

/-- Lifted multiplication (`NaN` absorbs). -/
def jmul (x y : JSNum) : JSNum :=
  match x, y with
  | some a, some b => some (a * b)
  | _, _ => none

/-- JS `x >= 0`: false for `NaN`. -/
def jge0 (x : JSNum) : Bool :=
  match x with
  | some q => decide (0 ≤ q)
  | none => false

/-- JS `Number.prototype.toFixed(2)` on a finite value: round to the nearest
hundredth, ties toward the larger candidate, then print with exactly two
decimals (sign taken from the rounded integer). -/
def toFixed2Q (q : ℚ) : String :=
  let n : ℤ := ⌊q * 100 + 1 / 2⌋
  let a : ℕ := n.natAbs
  (if n < 0 then "-" else "")
    ++ toString (a / 100) ++ "."
    ++ (if a % 100 < 10 then "0" else "") ++ toString (a % 100)

/-- `toFixed(2)` lifted to `JSNum` (`NaN.toFixed(2) = "NaN"`). -/
def jsToFixed2 (x : JSNum) : String :=
  match x with
  | some q => toFixed2Q q
  | none => "NaN"

/-- JS `String.prototype.replace` with a one-character string pattern:
remove the first occurrence of the character. -/
def removeFirst (c : Char) : List Char → List Char
  | [] => []
  | x :: xs => if x = c then xs else x :: removeFirst c xs

/-- `s.replace(c, '')` on the first occurrence. -/
def replaceFirst (c : Char) (s : String) : String :=
  String.mk (removeFirst c s.toList)

/-- Outcome of reading and JSON-parsing a cache file (`readFile` + truthiness
check + `JSON.parse`, each failure caught by the surrounding `try`). -/
inductive FileRead (α : Type) where
  | missing
  | empty
  | unparsable
  | parsed (doc : α)

/- ---------------------------------------------------------------------
src/lib/bseIndia.ts — response shapes and field mappers.
Response objects are optional (the code accesses them with `?.`); their
string fields are plain strings, as in the TypeScript types. Fields the
mappers never read are omitted from the records.
--------------------------------------------------------------------- -/

structure CurrRateR where
  LTP : String
  Chg : String
  PcChg : String
  deriving DecidableEq

structure CmpnameR where
  FullN : String
  ShortN : String
  deriving DecidableEq

structure HeaderR where
  PrevClose : String
  Open : String
  High : String
  Low : String
  LTP : String
  Ason : String
  deriving DecidableEq

structure BSEResponse where
  CurrRate : Option CurrRateR
  Cmpname : Option CmpnameR
  Header : Option HeaderR
  deriving DecidableEq

structure BSEStockData where
  scripcode : String
  companyName : String
  currentPrice : JSNum
  previousClose : JSNum
  openPrice : JSNum -- `open` in the source
  high : JSNum
  low : JSNum
  change : JSNum
  changePercent : JSNum
  lastUpdated : String
  deriving DecidableEq

/-- `mapBSEResponseToStockData` (src/lib/bseIndia.ts). `nowIso` stands for
`new Date().toISOString()`, the fallback for a falsy `Header?.Ason`. -/
def mapBSEResponseToStockData (nowIso scripcode : String) (data : BSEResponse) :
    BSEStockData :=
  let ltp := parseFloatQ
    (jsOrStr (data.CurrRate.map CurrRateR.LTP)
      (jsOrStr (data.Header.map HeaderR.LTP) "0"))
  let prevClose := parseFloatQ (jsOrStr (data.Header.map HeaderR.PrevClose) "0")
  let change := parseFloatQ
    (jsOrStr (data.CurrRate.map (fun c => replaceFirst '+' c.Chg)) "0")
  let changePercent := parseFloatQ
    (jsOrStr (data.CurrRate.map
      (fun c => replaceFirst '%' (replaceFirst '+' c.PcChg))) "0")
  { scripcode := scripcode
    companyName := jsOrStr (data.Cmpname.map CmpnameR.FullN)
      (jsOrStr (data.Cmpname.map CmpnameR.ShortN) "")
    currentPrice := ltp
    previousClose := prevClose
    openPrice := parseFloatQ (jsOrStr (data.Header.map HeaderR.Open) "0")
    high := parseFloatQ (jsOrStr (data.Header.map HeaderR.High) "0")
    low := parseFloatQ (jsOrStr (data.Header.map HeaderR.Low) "0")
    change := change
    changePercent := changePercent
    lastUpdated := jsOrStr (data.Header.map HeaderR.Ason) nowIso }

/-- `isBSEScripcode` (src/lib/bseIndia.ts): `/^\d+$/.test(symbol)`. -/
def isBSEScripcode (symbol : String) : Bool :=
  !(symbol == "") && symbol.toList.all Char.isDigit

/-- Flat fundamentals response; fields are possibly absent strings (the
mapper guards every access with falsiness checks). -/
structure BSEFundamentalsResponse where
  SecurityId : Option String
  ISIN : Option String
  Sector : Option String
  IndustryNew : Option String
  Industry : Option String
  ISubGroup : Option String
  FaceVal : Option String
  EPS : Option String
  CEPS : Option String
  PE : Option String
  PB : Option String
  ROE : Option String
  OPM : Option String
  NPM : Option String
  Group : Option String
  Index : Option String
  deriving DecidableEq

structure BSEFundamentalsData where
  scripcode : String
  securityId : String
  isin : String
  sector : String
  industry : String
  faceValue : ℚ
  eps : Option ℚ
  ceps : Option ℚ
  pe : Option ℚ
  pb : Option ℚ
  roe : Option ℚ
  opm : Option ℚ
  npm : Option ℚ
  group : String
  index : String
  deriving DecidableEq

/-- The local `parseNumber` of `mapBSEFundamentalsResponse`:
`!value || value === '-' || value.trim() === ''` gives `null`, otherwise
`parseFloat`, with `NaN` collapsed to `null`. -/
def parseNumber (value : Option String) : Option ℚ :=
  match value with
  | none => none
  | some s =>
    if s == "" then none
    else if s == "-" then none
    else if s.trim == "" then none
    else parseFloatQ s

/-- JS `a || b` on a nullable number: `null` and `0` both fall to `b`. -/
def jsNumOr (a : Option ℚ) (b : ℚ) : ℚ :=
  match a with
  | some q => if q = 0 then b else q
  | none => b

/-- `mapBSEFundamentalsResponse` (src/lib/bseIndia.ts). -/
def mapBSEFundamentalsResponse (scripcode : String)
    (data : BSEFundamentalsResponse) : BSEFundamentalsData :=
  { scripcode := scripcode
    securityId := jsOrStr data.SecurityId ""
    isin := jsOrStr data.ISIN ""
    sector := jsOrStr data.Sector (jsOrStr data.IndustryNew "")
    industry := jsOrStr data.Industry (jsOrStr data.ISubGroup "")
    faceValue := jsNumOr (parseNumber data.FaceVal) 0
    eps := parseNumber data.EPS
    ceps := parseNumber data.CEPS
    pe := parseNumber data.PE
    pb := parseNumber data.PB
    roe := parseNumber data.ROE
    opm := parseNumber data.OPM
    npm := parseNumber data.NPM
    group := jsOrStr data.Group ""
    index := jsOrStr data.Index "" }

/- ---------------------------------------------------------------------
Cache stores.
--------------------------------------------------------------------- -/

/-- `loadScripcodeCache` (src/lib/scripcodeCache.ts): missing, empty or
unparsable file yields an empty map; a parsed flat object is rebuilt into a
`Map` entry by entry. -/
def loadScripcodeCache (file : FileRead (List (String × String))) :
    List (String × String) :=
  match file with
  | .missing => []
  | .empty => []
  | .unparsable => []
  | .parsed entries => entries.foldl (fun m p => mapSet m p.1 p.2) []

/-- One price cache entry (src/lib/priceCache.ts): write timestamp plus the
price snapshot. -/
structure CachedPrice where
  timestamp : ℤ
  data : BSEStockData
  deriving DecidableEq

/-- `PRICE_CACHE_DURATION_MS = 2 * 60 * 1000`. -/
def PRICE_CACHE_DURATION_MS : ℤ := 2 * 60 * 1000

/-- `isPriceCacheValid` (src/lib/priceCache.ts): `(now - timestamp) < duration`. -/
def isPriceCacheValid (timestamp now : ℤ) : Bool :=
  decide (now - timestamp < PRICE_CACHE_DURATION_MS)

/-- `loadPriceCache` (src/lib/priceCache.ts): per-entry validity filter; any
read or parse failure yields the empty map. -/
def loadPriceCache (file : FileRead (List (String × CachedPrice))) (now : ℤ) :
    List (String × BSEStockData) :=
  match file with
  | .missing => []
  | .empty => []
  | .unparsable => []
  | .parsed entries =>
    entries.foldl
      (fun m p =>
        if isPriceCacheValid p.2.timestamp now then mapSet m p.1 p.2.data else m)
      []

/-- `savePriceCache` (src/lib/priceCache.ts): stamp every entry with the one
current write time `now` (`Date.now()`), whole document replaced. -/
def savePriceCache (now : ℤ) (prices : List (String × BSEStockData)) :
    List (String × CachedPrice) :=
  prices.map (fun p => (p.1, CachedPrice.mk now p.2))

/-- The serialized fundamentals cache document (src/lib/fundamentalsCache.ts):
ONE timestamp for the whole document, entries carry none of their own. -/
structure CachedFundamentals where
  timestamp : ℤ
  data : List (String × BSEFundamentalsData)
  deriving DecidableEq

/-- `CACHE_DURATION_MS = 24 * 60 * 60 * 1000`. -/
def CACHE_DURATION_MS : ℤ := 24 * 60 * 60 * 1000

/-- `isCacheValid` (src/lib/fundamentalsCache.ts). -/
def isCacheValid (timestamp now : ℤ) : Bool :=
  decide (now - timestamp < CACHE_DURATION_MS)

/-- `saveFundamentalsCache` (src/lib/fundamentalsCache.ts): the document is
`{ timestamp: Date.now(), data: Array.from(map.entries()) }`. -/
def saveFundamentalsCache (now : ℤ) (data : List (String × BSEFundamentalsData)) :
    CachedFundamentals :=
  CachedFundamentals.mk now data

/-- `loadFundamentalsCache` (src/lib/fundamentalsCache.ts): read failure,
empty or unparsable content gives `null`; a falsy document timestamp (0)
gives `null`; then the WHOLE mapping is returned when the single document
timestamp is fresh and `null` otherwise (array-format branch; the entries
are replayed into a `Map`). -/
def loadFundamentalsCache (file : FileRead CachedFundamentals) (now : ℤ) :
    Option (List (String × BSEFundamentalsData)) :=
  match file with
  | .missing => none
  | .empty => none
  | .unparsable => none
  | .parsed cached =>
    if cached.timestamp == 0 then none
    else if isCacheValid cached.timestamp now then
      some (cached.data.foldl (fun m p => mapSet m p.1 p.2) [])
    else none

/- ---------------------------------------------------------------------
Network environment and fetchers (src/lib/bseIndia.ts).
--------------------------------------------------------------------- -/

/-- Oracles for the outside world. `none` models any caught failure:
network error, non-2xx status, or a response body that fails to parse.
`search` likewise stands for `searchBSEScripcode`, whose HTML scraping is
driven by the response text (`none`: no pattern matched or the call failed). -/
structure NetEnv where
  netPrice : String → Option BSEResponse
  netFundamentals : String → Option BSEFundamentalsResponse
  search : String → Option String
  nowIso : String
  scripFile : FileRead (List (String × String))
  priceFile : FileRead (List (String × CachedPrice))
  fundFile : FileRead CachedFundamentals
  now : ℤ

/-- `fetchBSEData`: every failure is caught and becomes `null`. -/
def fetchBSEData (env : NetEnv) (scripcode : String) : Option BSEStockData :=
  match env.netPrice scripcode with
  | some data => some (mapBSEResponseToStockData env.nowIso scripcode data)
  | none => none

/-- `fetchBSEFundamentals`: every failure is caught and becomes `null`. -/
def fetchBSEFundamentals (env : NetEnv) (scripcode : String) :
    Option BSEFundamentalsData :=
  match env.netFundamentals scripcode with
  | some data => some (mapBSEFundamentalsResponse scripcode data)
  | none => none

/-- The batch partition of the fetch loop
(`for i = 0; i < len; i += BATCH_SIZE: slice(i, i + BATCH_SIZE)`): the k-th
batch is `slice(10k, 10k + 10)`, and there are `ceil(len / 10)` iterations. -/
def chunks10 {α : Type} (l : List α) : List (List α) :=
  (List.range ((l.length + 9) / 10)).map (fun k => (l.drop (10 * k)).take 10)

/-- One observable step of `fetchMultipleBSEData`: a batch of concurrent
fetches, or the fixed 1-second pause (`BATCH_DELAY_MS`). -/
inductive BatchEvent where
  | batch (scripcodes : List String)
  | delay
  deriving DecidableEq

/-- The schedule of `fetchMultipleBSEData` (src/lib/bseIndia.ts): each loop
iteration issues one batch of concurrent fetches, then the fixed delay
exactly when `i + BATCH_SIZE < scripcodes.length`, i.e. when another batch
follows; an empty input issues nothing. -/
def fetchSchedule (scripcodes : List String) : List BatchEvent :=
  ((List.range ((scripcodes.length + 9) / 10)).map
    (fun k =>
      BatchEvent.batch ((scripcodes.drop (10 * k)).take 10) ::
        (if 10 * k + 10 < scripcodes.length then [BatchEvent.delay] else []))).flatten

/-- The merged result of one batch: each successful fetch is inserted, each
failed one is skipped (`if (data) results.set(...)`). -/
def fetchPriceBatch (env : NetEnv) (m : List (String × BSEStockData))
    (batch : List String) : List (String × BSEStockData) :=
  batch.foldl
    (fun m sc =>
      match fetchBSEData env sc with
      | some d => mapSet m sc d
      | none => m)
    m

/-- `fetchMultipleBSEData` (src/lib/bseIndia.ts), value part: the batches are
processed in order and merged into one map. -/
def fetchMultipleBSEData (env : NetEnv) (scripcodes : List String) :
    List (String × BSEStockData) :=
  (chunks10 scripcodes).foldl (fetchPriceBatch env) []

/-- Same merge step for fundamentals. -/
def fetchFundamentalsBatch (env : NetEnv)
    (m : List (String × BSEFundamentalsData)) (batch : List String) :
    List (String × BSEFundamentalsData) :=
  batch.foldl
    (fun m sc =>
      match fetchBSEFundamentals env sc with
      | some d => mapSet m sc d
      | none => m)
    m

/-- `fetchMultipleBSEFundamentals` (src/lib/bseIndia.ts), value part. -/
def fetchMultipleBSEFundamentals (env : NetEnv) (scripcodes : List String) :
    List (String × BSEFundamentalsData) :=
  (chunks10 scripcodes).foldl (fetchFundamentalsBatch env) []

/- ---------------------------------------------------------------------
Portfolio data model (src/types/portfolio.ts) and aggregator
(src/lib/portfolioData.ts).
--------------------------------------------------------------------- -/

structure FixedBlock where
  purchasePrice : ℚ
  qty : ℚ
  investment : ℚ
  portfolioPercent : String
  stage2 : Bool
  deriving DecidableEq

/-- The realtime block, including the two extra optional fields of
`UpdatedPortfolioHolding` (absent on a static holding). -/
structure RealtimeBlock where
  cmp : JSNum
  presentValue : JSNum
  gainLoss : JSNum
  gainLossPercent : String
  marketCap : JSNum
  lastUpdated : Option String
  priceSource : Option String
  deriving DecidableEq

/-- The fundamentals block. The aggregator reads and writes only `peTTM`,
`priceToBook` and `latestEarnings`; the remaining fields are carried
verbatim by the object spread, so their union types are collapsed to
`Option String` here. -/
structure FundamentalsBlock where
  peTTM : Option ℚ
  latestEarnings : Option ℚ
  priceToBook : Option ℚ
  revenueTTM : Option String
  ebitdaTTM : Option String
  ebitdaPercent : Option String
  pat : Option String
  patPercent : Option String
  cfoMarch24 : Option String
  cfo5Years : Option String
  debtToEquity : Option String
  bookValue : Option String
  revenueGrowth : Option String
  ebitdaGrowth : Option String
  profitGrowth : Option String
  marketCapGrowth : Option String
  priceToSales : Option String
  cfoToEbitda : Option String
  cfoToPat : Option String
  deriving DecidableEq

structure Holding where
  symbol : String
  companyName : String
  sector : String
  fixed : FixedBlock
  realtime : RealtimeBlock
  fundamentals : FundamentalsBlock
  deriving DecidableEq

/-- `mapBSEFundamentalsToPortfolio` (src/lib/portfolioData.ts): overlay
`pe`, `pb`, `eps` onto the existing block with `??` (null keeps the
existing value), everything else spread through unchanged. -/
def mapBSEFundamentalsToPortfolio (bseFundamentals : BSEFundamentalsData)
    (existingFundamentals : FundamentalsBlock) : FundamentalsBlock :=
  { existingFundamentals with
    peTTM :=
      match bseFundamentals.pe with
      | some v => some v
      | none => existingFundamentals.peTTM
    priceToBook :=
      match bseFundamentals.pb with
      | some v => some v
      | none => existingFundamentals.priceToBook
    latestEarnings :=
      match bseFundamentals.eps with
      | some v => some v
      | none => existingFundamentals.latestEarnings }

/-- The realtime block rebuilt from fetched BSE data
(src/lib/portfolioData.ts, lines 186-202). -/
def updatedRealtime (holding : Holding) (bseData : BSEStockData) :
    RealtimeBlock :=
  let newPresentValue := jmulQ bseData.currentPrice holding.fixed.qty
  let newGainLoss := jsubQ newPresentValue holding.fixed.investment
  let newGainLossPercent :=
    if 0 < holding.fixed.investment then
      jsToFixed2 (jmul (jdivQ newGainLoss holding.fixed.investment) (some 100))
    else "0.00"
  { holding.realtime with
    cmp := bseData.currentPrice
    presentValue := newPresentValue
    gainLoss := newGainLoss
    gainLossPercent :=
      (if jge0 newGainLoss then "+" else "") ++ newGainLossPercent ++ "%"
    marketCap := holding.realtime.marketCap
    lastUpdated := some bseData.lastUpdated
    priceSource := some "bse" }

/-- The per-holding mapping step of `getPortfolioWithRealtimeData`
(src/lib/portfolioData.ts, lines 176-220): no resolved scripcode (or a falsy
one) leaves the holding untouched; otherwise overlay price data when present
and fundamentals when present, each block from the original holding. -/
def enrichHolding (symbolToScripcode : List (String × String))
    (priceDataMap : List (String × BSEStockData))
    (fundamentalsMap : List (String × BSEFundamentalsData))
    (holding : Holding) : Holding :=
  match mapGet symbolToScripcode holding.symbol with
  | none => holding
  | some scripcode =>
    if scripcode == "" then holding
    else
      let h1 :=
        match mapGet priceDataMap scripcode with
        | some bseData => { holding with realtime := updatedRealtime holding bseData }
        | none => holding
      match mapGet fundamentalsMap scripcode with
      | some bseFundamentals =>
        { h1 with
          fundamentals :=
            mapBSEFundamentalsToPortfolio bseFundamentals holding.fundamentals }
      | none => h1

/-- `resolveBSEScripcode` (src/lib/portfolioData.ts), value part: an
all-digit symbol is its own scripcode; a truthy cache hit is returned;
otherwise the network search decides (a falsy result counts as no match).
The in-memory cache insertion performed on a network hit only feeds the
batched save and is not part of the returned value. -/
def resolveBSEScripcode (env : NetEnv) (scripcodeCache : List (String × String))
    (symbol : String) : Option String :=
  if isBSEScripcode symbol then some symbol
  else
    let fromSearch :=
      match env.search symbol with
      | some sc => if sc == "" then none else some sc
      | none => none
    match mapGet scripcodeCache symbol with
    | some cached => if cached == "" then fromSearch else some cached
    | none => fromSearch

/-- `getFundamentalsForBSEScripcodes` (src/lib/portfolioData.ts): start from
the cached mapping (or empty when the cache is absent), fetch only the
missing scripcodes, merge the fetched entries in. The `saveFundamentalsCache`
call is a write effect with no influence on the returned value. -/
def getFundamentalsForBSEScripcodes (env : NetEnv) (scripcodes : List String) :
    List (String × BSEFundamentalsData) :=
  if scripcodes.isEmpty then []
  else
    let cached := loadFundamentalsCache env.fundFile env.now
    let result := match cached with
      | some m => m
      | none => []
    let missingScripcodes := scripcodes.filter (fun sc => !(mapHas result sc))
    if missingScripcodes.isEmpty then result
    else
      let fetchedFundamentals := fetchMultipleBSEFundamentals env missingScripcodes
      fetchedFundamentals.foldl (fun m p => mapSet m p.1 p.2) result

/-- Step 2 of `getPortfolioWithRealtimeData`: resolve every distinct symbol
against the initially loaded scripcode cache. The resolution promises all
read the cache before any search response mutates it (each lookup is
synchronous, the mutation happens after the awaited search), and the
resolved symbols are distinct, so the parallel phase is this map. -/
def aggResolved (env : NetEnv) (holdings : List Holding) :
    List (String × Option String) :=
  (jsSetDedup (holdings.map Holding.symbol)).map
    (fun symbol =>
      (symbol, resolveBSEScripcode env (loadScripcodeCache env.scripFile)
        symbol))

/-- The `resolved.forEach` loop: only truthy scripcodes enter
`symbolToScripcode`. -/
def buildSymbolToScripcode (resolved : List (String × Option String)) :
    List (String × String) :=
  resolved.foldl
    (fun m p =>
      match p.2 with
      | some sc => if sc == "" then m else mapSet m p.1 sc
      | none => m)
    []

def aggSymbolToScripcode (env : NetEnv) (holdings : List Holding) :
    List (String × String) :=
  buildSymbolToScripcode (aggResolved env holdings)

/-- `[...new Set(Array.from(symbolToScripcode.values()))]`. -/
def aggUniqueScripcodes (env : NetEnv) (holdings : List Holding) :
    List String :=
  jsSetDedup ((aggSymbolToScripcode env holdings).map Prod.snd)

/-- Step 6 of `getPortfolioWithRealtimeData`: cache-first price map — take
each scripcode from the loaded price cache or queue it for the batch fetch,
then merge the fetched prices in. -/
def aggPriceDataMap (env : NetEnv) (holdings : List Holding) :
    List (String × BSEStockData) :=
  let priceCache := loadPriceCache env.priceFile env.now
  let cacheSplit := (aggUniqueScripcodes env holdings).foldl
    (fun acc sc =>
      match mapGet priceCache sc with
      | some cachedPrice => (mapSet acc.1 sc cachedPrice, acc.2)
      | none => (acc.1, acc.2 ++ [sc]))
    (([] : List (String × BSEStockData)), ([] : List String))
  if cacheSplit.2.isEmpty then cacheSplit.1
  else (fetchMultipleBSEData env cacheSplit.2).foldl
    (fun m p => mapSet m p.1 p.2) cacheSplit.1

/-- `getPortfolioWithRealtimeData` (src/lib/portfolioData.ts), value part:
resolve, build the symbol-to-scripcode map, fetch fundamentals and prices
cache-first, then map every holding through the enrichment step. The
scripcode/fundamentals/price cache writes are effects with no influence on
the returned value. -/
def getPortfolioWithRealtimeData (env : NetEnv) (holdings : List Holding) :
    List Holding :=
  holdings.map
    (enrichHolding (aggSymbolToScripcode env holdings)
      (aggPriceDataMap env holdings)
      (getFundamentalsForBSEScripcodes env (aggUniqueScripcodes env holdings)))

/-- `getHoldingWithRealtimeData` (src/lib/portfolioData.ts), value part:
`null` when the symbol is not a static holding; otherwise resolve, take the
cached price or fetch one, overlay price data and then fundamentals (the
fundamentals overlay reads the ORIGINAL holding.fundamentals). -/
def getHoldingWithRealtimeData (env : NetEnv) (holdings : List Holding)
    (symbol : String) : Option Holding :=
  match holdings.find? (fun h => h.symbol == symbol) with
  | none => none
  | some holding =>
    let scripcodeCache := loadScripcodeCache env.scripFile
    let priceCache := loadPriceCache env.priceFile env.now
    match resolveBSEScripcode env scripcodeCache holding.symbol with
    | none => some holding
    | some scripcode =>
      if scripcode == "" then some holding
      else
        let bse? :=
          match mapGet priceCache scripcode with
          | some cached => some cached
          | none => fetchBSEData env scripcode
        let h1 :=
          match bse? with
          | some bseData =>
            { holding with realtime := updatedRealtime holding bseData }
          | none => holding
        let fundamentalsMap := getFundamentalsForBSEScripcodes env [scripcode]
        match mapGet fundamentalsMap scripcode with
        | some bseFundamentals =>
          some { h1 with
            fundamentals :=
              mapBSEFundamentalsToPortfolio bseFundamentals holding.fundamentals }
        | none => some h1

/- ---------------------------------------------------------------------
Concrete sample data for boundary checks.
--------------------------------------------------------------------- -/

def fundA : BSEFundamentalsData :=
  { scripcode := "500180", securityId := "HDFCBANK", isin := "INE040A01034"
    sector := "Financial Services", industry := "Banks", faceValue := 1
    eps := some 90, ceps := none, pe := some 19, pb := some 3, roe := some 17
    opm := none, npm := none, group := "A", index := "SENSEX" }

def fundB : BSEFundamentalsData :=
  { scripcode := "532174", securityId := "ICICIBANK", isin := "INE090A01021"
    sector := "Financial Services", industry := "Banks", faceValue := 2
    eps := some 60, ceps := none, pe := some 18, pb := some 3, roe := some 16
    opm := none, npm := none, group := "A", index := "SENSEX" }

def stockA : BSEStockData :=
  { scripcode := "500325", companyName := "Reliance Industries Ltd"
    currentPrice := some 120, previousClose := some 118, openPrice := some 119
    high := some 121, low := some 117, change := some 2
    changePercent := some 2, lastUpdated := "12 Oct 2026" }

def fundamentalsBlank : FundamentalsBlock :=
  { peTTM := none, latestEarnings := none, priceToBook := none
    revenueTTM := none, ebitdaTTM := none, ebitdaPercent := none
    pat := none, patPercent := none, cfoMarch24 := none, cfo5Years := none
    debtToEquity := none, bookValue := none, revenueGrowth := none
    ebitdaGrowth := none, profitGrowth := none, marketCapGrowth := none
    priceToSales := none, cfoToEbitda := none, cfoToPat := none }

def holdingA : Holding :=
  { symbol := "RELIANCE", companyName := "Reliance Industries"
    sector := "Energy"
    fixed := { purchasePrice := 100, qty := 10, investment := 1000
               portfolioPercent := "5%", stage2 := true }
    realtime := { cmp := some 100, presentValue := some 1000
                  gainLoss := some 0, gainLossPercent := "+0.00%"
                  marketCap := some 500, lastUpdated := none
                  priceSource := none }
    fundamentals := fundamentalsBlank }

/-- Same holding with zero static investment. -/
def holdingZeroInv : Holding :=
  { holdingA with
    fixed := { purchasePrice := 100, qty := 10, investment := 0
               portfolioPercent := "0%", stage2 := false } }

/-- A fundamentals response whose numeric fields carry the vendor sentinels. -/
def fundRespSentinels : BSEFundamentalsResponse :=
  { SecurityId := some "HDFCBANK", ISIN := some "INE040A01034"
    Sector := some "Financial Services", IndustryNew := none
    Industry := some "Banks", ISubGroup := none
    FaceVal := some "-", EPS := some "-", CEPS := some ""
    PE := some "19.5", PB := some "abc", ROE := some " "
    OPM := none, NPM := some "17.2", Group := some "A", Index := some "SENSEX" }

/-- A price response whose LTP fields are empty strings and whose change
field is the dash sentinel. -/
def priceRespEmpty : BSEResponse :=
  { CurrRate := some { LTP := "", Chg := "-", PcChg := "" }
    Cmpname := some { FullN := "Reliance Industries Ltd", ShortN := "RIL" }
    Header := some { PrevClose := "118.00", Open := "119.00", High := "121.00"
                     Low := "117.00", LTP := "", Ason := "12 Oct 2026" } }

/-- An environment in which every network call fails and every cache file is
missing. -/
def envAllFail : NetEnv :=
  { netPrice := fun _ => none
    netFundamentals := fun _ => none
    search := fun _ => none
    nowIso := "2026-10-12T00:00:00.000Z"
    scripFile := FileRead.missing
    priceFile := FileRead.missing
    fundFile := FileRead.missing
    now := 1760227200000 }

/-- The claim C1 reading of the fundamentals store, stated from the claim
words for comparison with `loadFundamentalsCache`: every entry is stamped
with the write time `t` and filtered individually at read time, so the load
result is the mapping of exactly the entries younger than 24 hours. -/
def loadFundamentalsPerEntryClaim (t : ℤ)
    (m : List (String × BSEFundamentalsData)) (now : ℤ) :
    Option (List (String × BSEFundamentalsData)) :=
  some (m.filter (fun _ => decide (now - t < CACHE_DURATION_MS)))

/- ---------------------------------------------------------------------
Map-model lemmas.
--------------------------------------------------------------------- -/

theorem mapGet_mapSet {α : Type} (m : List (String × α)) (k : String) (v : α)
    (q : String) :
    mapGet (mapSet m k v) q = if q = k then some v else mapGet m q := by
  induction m with
  | nil =>
    simp only [mapSet, mapGet, beq_iff_eq]
    by_cases h : q = k
    · subst h
      simp
    · rw [if_neg (fun hh => h hh.symm), if_neg h]
  | cons p rest ih =>
    simp only [mapSet]
    by_cases hpk : p.1 = k
    · simp only [hpk, beq_self_eq_true, if_true, mapGet, beq_iff_eq]
      by_cases h : q = k
      · subst h
        simp
      · rw [if_neg (fun hh => h hh.symm), if_neg h,
          if_neg (fun hh => h hh.symm)]
    · simp only [beq_iff_eq, hpk, if_false, mapGet, ih]
      by_cases hqp : p.1 = q
      · simp_all
      · simp_all

theorem mapGet_append {α : Type} (m₁ m₂ : List (String × α)) (q : String) :
    mapGet (m₁ ++ m₂) q = (mapGet m₁ q).or (mapGet m₂ q) := by
  induction m₁ with
  | nil => simp [mapGet]
  | cons p rest ih =>
    simp only [List.cons_append, mapGet]
    split
    · simp
    · exact ih

theorem mapSet_of_get_none {α : Type} (m : List (String × α)) (k : String)
    (v : α) (h : mapGet m k = none) : mapSet m k v = m ++ [(k, v)] := by
  induction m with
  | nil => simp [mapSet]
  | cons p rest ih =>
    simp only [mapGet] at h
    simp only [mapSet, List.cons_append]
    split
    · simp_all
    · rw [ih]
      split at h
      · exact absurd h (by simp)
      · exact h

theorem foldl_mapSet_fresh {α : Type} (l m : List (String × α))
    (hfresh : ∀ p ∈ l, mapGet m p.1 = none)
    (hnd : (l.map Prod.fst).Nodup) :
    l.foldl (fun m p => mapSet m p.1 p.2) m = m ++ l := by
  induction l generalizing m with
  | nil => simp
  | cons hd tl ih =>
    simp only [List.foldl_cons]
    rw [mapSet_of_get_none m hd.1 hd.2 (hfresh hd (by simp))]
    rw [ih]
    · simp
    · intro p hp
      rw [mapGet_append]
      rw [hfresh p (by simp [hp])]
      simp only [Option.none_or, mapGet]
      have : hd.1 ≠ p.1 := by
        simp only [List.map_cons, List.nodup_cons] at hnd
        intro hcontra
        exact hnd.1 (hcontra ▸ List.mem_map_of_mem Prod.fst hp)
      simp [beq_iff_eq, this]
  -- second goal of ih: nodup of the tail
    · simp only [List.map_cons, List.nodup_cons] at hnd
      exact hnd.2

/-- Replaying a mapping with distinct keys entry by entry into a fresh `Map`
reproduces it (the `new Map(entries)` / `forEach set` rebuild in the cache
loaders). -/
theorem foldl_mapSet_nil {α : Type} (l : List (String × α))
    (hnd : (l.map Prod.fst).Nodup) :
    l.foldl (fun m p => mapSet m p.1 p.2) [] = l := by
  have := foldl_mapSet_fresh l [] (by intro p _; rfl) hnd
  simpa using this

/- ---------------------------------------------------------------------
Claim theorems.
--------------------------------------------------------------------- -/

/-- Claim C6: for every cache store, a load on a missing, empty or
unparsable cache file returns an empty result (empty mapping for the
scripcode and price stores, absent for the fundamentals store). The loaders
are total functions of the read outcome, so no error reaches the caller. -/
theorem cache_load_failure_yields_empty (now : ℤ) :
    loadScripcodeCache FileRead.missing = [] ∧
    loadScripcodeCache FileRead.empty = [] ∧
    loadScripcodeCache FileRead.unparsable = [] ∧
    loadPriceCache FileRead.missing now = [] ∧
    loadPriceCache FileRead.empty now = [] ∧
    loadPriceCache FileRead.unparsable now = [] ∧
    loadFundamentalsCache FileRead.missing now = none ∧
    loadFundamentalsCache FileRead.empty now = none ∧
    loadFundamentalsCache FileRead.unparsable now = none :=
  ⟨rfl, rfl, rfl, rfl, rfl, rfl, rfl, rfl, rfl⟩

/-- Claim C5: a price entry written at time `t` is readable exactly while
`now - t < 2 minutes` (strict comparison), hence present at
`t + duration - 1ms` and absent at `t + duration + 1ms`. -/
theorem price_cache_ttl_boundary (k : String) (t now : ℤ) (d : BSEStockData) :
    isPriceCacheValid t now = decide (now - t < 2 * 60 * 1000) ∧
    mapGet (loadPriceCache (FileRead.parsed (savePriceCache t [(k, d)])) now) k
      = (if now - t < PRICE_CACHE_DURATION_MS then some d else none) ∧
    mapGet (loadPriceCache (FileRead.parsed (savePriceCache t [(k, d)]))
      (t + PRICE_CACHE_DURATION_MS - 1)) k = some d ∧
    mapGet (loadPriceCache (FileRead.parsed (savePriceCache t [(k, d)]))
      (t + PRICE_CACHE_DURATION_MS + 1)) k = none := by
  have hload : ∀ n : ℤ,
      mapGet (loadPriceCache (FileRead.parsed (savePriceCache t [(k, d)])) n) k
        = (if n - t < PRICE_CACHE_DURATION_MS then some d else none) := by
    intro n
    simp only [savePriceCache, List.map_cons, List.map_nil, loadPriceCache,
      List.foldl_cons, List.foldl_nil, isPriceCacheValid]
    by_cases hv : n - t < PRICE_CACHE_DURATION_MS
    · simp [hv, mapSet, mapGet]
    · simp [hv, mapGet]
  refine ⟨rfl, hload now, ?_, ?_⟩
  · rw [hload, if_pos (by simp only [PRICE_CACHE_DURATION_MS]; omega)]
  · rw [hload, if_neg (by simp only [PRICE_CACHE_DURATION_MS]; omega)]

/-- Claim C1 (amended): the fundamentals store carries a single write
timestamp for the whole document. `save` stamps the document once with the
current write time; `load` returns the entire saved mapping when the
document age satisfies the strict 24-hour check, and absent otherwise —
the whole mapping is treated as valid or expired at once. -/
theorem fundamentals_cache_document_ttl
    (m : List (String × BSEFundamentalsData)) (t now : ℤ)
    (hnz : t ≠ 0) (hnd : (m.map Prod.fst).Nodup) :
    loadFundamentalsCache (FileRead.parsed (saveFundamentalsCache t m)) now
      = (if now - t < CACHE_DURATION_MS then some m else none) := by
  simp only [saveFundamentalsCache, loadFundamentalsCache]
  rw [if_neg (show ¬((t == 0) = true) by simp [hnz])]
  by_cases hv : now - t < CACHE_DURATION_MS
  · rw [if_pos (show (isCacheValid t now) = true by simp [isCacheValid, hv]),
      if_pos hv, foldl_mapSet_nil m hnd]
  · rw [if_neg (show ¬((isCacheValid t now) = true) by simp [isCacheValid, hv]),
      if_neg hv]

/-- Witness for `fundamentals_cache_document_ttl` at a concrete two-entry
mapping, write time 1000 and read time 5000 (fresh document). -/
theorem fundamentals_cache_document_ttl_witness :
    loadFundamentalsCache
      (FileRead.parsed
        (saveFundamentalsCache 1000 [("500180", fundA), ("532174", fundB)]))
      5000 = some [("500180", fundA), ("532174", fundB)] := by
  rw [fundamentals_cache_document_ttl [("500180", fundA), ("532174", fundB)]
    1000 5000 (by decide) (by decide)]
  rw [if_pos (by simp only [CACHE_DURATION_MS]; omega)]

/-- Claim C1 counterexample: the claim predicts that load filters expired
entries individually and returns the mapping of exactly the surviving
entries (here: the empty mapping, both entries being exactly 24 hours old),
but `loadFundamentalsCache` decides on the single document timestamp and
returns absent — the saved document carries no per-entry write times. -/
theorem fundamentals_cache_not_per_entry :
    loadFundamentalsCache
      (FileRead.parsed
        (saveFundamentalsCache 1000 [("500180", fundA), ("532174", fundB)]))
      (1000 + CACHE_DURATION_MS) = none ∧
    loadFundamentalsPerEntryClaim 1000 [("500180", fundA), ("532174", fundB)]
      (1000 + CACHE_DURATION_MS) = some [] ∧
    loadFundamentalsCache
      (FileRead.parsed
        (saveFundamentalsCache 1000 [("500180", fundA), ("532174", fundB)]))
      (1000 + CACHE_DURATION_MS)
      ≠ loadFundamentalsPerEntryClaim 1000 [("500180", fundA), ("532174", fundB)]
        (1000 + CACHE_DURATION_MS) := by
  refine ⟨?_, ?_, ?_⟩ <;> decide

/-- Claim C4 counterexample: the dash sentinel and the empty string do NOT
always map to absent. The mandatory face value coalesces the dash to `0`,
and the price mapper turns empty LTP fields into the literal string `"0"`,
which parses to `0`; meanwhile a dash in `Chg` reaches `parseFloat`
unguarded and yields `NaN`, not absent-as-null. -/
theorem numeric_sentinels_counterexample :
    (mapBSEFundamentalsResponse "500180" fundRespSentinels).faceValue = 0 ∧
    (mapBSEResponseToStockData "2026-10-12T00:00:00.000Z" "500325"
      priceRespEmpty).currentPrice = some 0 ∧
    (mapBSEResponseToStockData "2026-10-12T00:00:00.000Z" "500325"
      priceRespEmpty).change = none := by
  refine ⟨by decide, ?_, by decide⟩
  simp +decide [mapBSEResponseToStockData, priceRespEmpty, jsOrStr,
    parseFloatQ, natOfDigits, List.dropWhile, List.takeWhile]

/-- Claim C4 (amended): in the fundamentals mapper, the dash sentinel, empty
or whitespace-only strings, and unparsable tokens all map to absent for the
optional fields (EPS, CEPS, PE, PB, ROE, OPM, NPM); the mandatory face value
coalesces absent to 0, so those same tokens yield 0 there. In the price
mapper an empty or missing field falls back to the literal string "0" and
parses to 0, while a dash parses to NaN. -/
theorem numeric_parsing_policy (s sc sc2 nowIso : String)
    (r : BSEFundamentalsResponse) (pr : BSEResponse)
    (hs : s = "-" ∨ s.trim = "" ∨ parseFloatQ s = none) :
    parseNumber (some s) = none ∧
    parseNumber none = none ∧
    (mapBSEFundamentalsResponse sc r).eps = parseNumber r.EPS ∧
    (mapBSEFundamentalsResponse sc r).ceps = parseNumber r.CEPS ∧
    (mapBSEFundamentalsResponse sc r).pe = parseNumber r.PE ∧
    (mapBSEFundamentalsResponse sc r).pb = parseNumber r.PB ∧
    (mapBSEFundamentalsResponse sc r).roe = parseNumber r.ROE ∧
    (mapBSEFundamentalsResponse sc r).opm = parseNumber r.OPM ∧
    (mapBSEFundamentalsResponse sc r).npm = parseNumber r.NPM ∧
    (mapBSEFundamentalsResponse sc r).faceValue
      = jsNumOr (parseNumber r.FaceVal) 0 ∧
    jsNumOr none 0 = 0 ∧
    (mapBSEResponseToStockData nowIso sc2 pr).currentPrice
      = parseFloatQ (jsOrStr (pr.CurrRate.map CurrRateR.LTP)
          (jsOrStr (pr.Header.map HeaderR.LTP) "0")) ∧
    parseFloatQ "0" = some 0 ∧
    parseFloatQ "-" = none := by
  refine ⟨?_, rfl, rfl, rfl, rfl, rfl, rfl, rfl, rfl, rfl, rfl, rfl,
    by simp +decide [parseFloatQ, natOfDigits, List.dropWhile, List.takeWhile],
    by decide⟩
  rcases hs with h | h | h
  · subst h
    decide
  · simp [parseNumber, h]
  · simp [parseNumber, h]

/-- Witness for `numeric_parsing_policy` at the dash sentinel and the
concrete sentinel-laden responses. -/
theorem numeric_parsing_policy_witness :
    parseNumber (some "-") = none ∧
    parseNumber none = none ∧
    (mapBSEFundamentalsResponse "500180" fundRespSentinels).eps
      = parseNumber fundRespSentinels.EPS ∧
    (mapBSEFundamentalsResponse "500180" fundRespSentinels).ceps
      = parseNumber fundRespSentinels.CEPS ∧
    (mapBSEFundamentalsResponse "500180" fundRespSentinels).pe
      = parseNumber fundRespSentinels.PE ∧
    (mapBSEFundamentalsResponse "500180" fundRespSentinels).pb
      = parseNumber fundRespSentinels.PB ∧
    (mapBSEFundamentalsResponse "500180" fundRespSentinels).roe
      = parseNumber fundRespSentinels.ROE ∧
    (mapBSEFundamentalsResponse "500180" fundRespSentinels).opm
      = parseNumber fundRespSentinels.OPM ∧
    (mapBSEFundamentalsResponse "500180" fundRespSentinels).npm
      = parseNumber fundRespSentinels.NPM ∧
    (mapBSEFundamentalsResponse "500180" fundRespSentinels).faceValue
      = jsNumOr (parseNumber fundRespSentinels.FaceVal) 0 ∧
    jsNumOr none 0 = 0 ∧
    (mapBSEResponseToStockData "2026-10-12T00:00:00.000Z" "500325"
      priceRespEmpty).currentPrice
      = parseFloatQ (jsOrStr (priceRespEmpty.CurrRate.map CurrRateR.LTP)
          (jsOrStr (priceRespEmpty.Header.map HeaderR.LTP) "0")) ∧
    parseFloatQ "0" = some 0 ∧
    parseFloatQ "-" = none :=
  numeric_parsing_policy "-" "500180" "500325" "2026-10-12T00:00:00.000Z"
    fundRespSentinels priceRespEmpty (Or.inl rfl)

/-- When the symbol resolves to a truthy scripcode with price data present,
the enriched realtime block is exactly `updatedRealtime` (the fundamentals
overlay never touches the realtime block). -/
theorem enrich_realtime_of_price (s2s : List (String × String))
    (pm : List (String × BSEStockData))
    (fm : List (String × BSEFundamentalsData)) (h : Holding) (sc : String)
    (bse : BSEStockData) (h1 : mapGet s2s h.symbol = some sc) (h2 : sc ≠ "")
    (h3 : mapGet pm sc = some bse) :
    (enrichHolding s2s pm fm h).realtime = updatedRealtime h bse := by
  simp only [enrichHolding, h1, h3]
  rw [if_neg (show ¬((sc == "") = true) by simp [h2])]
  cases hfm : mapGet fm sc <;> simp

/-- Claim C2: for a holding whose symbol resolved and whose price was
fetched (a finite `currentPrice`), the aggregator recomputes
`presentValue = currentPrice * qty`, `gainLoss = presentValue - investment`
and, for positive static investment, renders
`(gainLoss / investment) * 100` to two decimals with an explicit plus sign
for non-negative gains. -/
theorem gain_loss_arithmetic (s2s : List (String × String))
    (pm : List (String × BSEStockData))
    (fm : List (String × BSEFundamentalsData)) (h : Holding) (sc : String)
    (bse : BSEStockData) (p : ℚ)
    (h1 : mapGet s2s h.symbol = some sc) (h2 : sc ≠ "")
    (h3 : mapGet pm sc = some bse) (hp : bse.currentPrice = some p)
    (hinv : 0 < h.fixed.investment) :
    (enrichHolding s2s pm fm h).realtime.cmp = some p ∧
    (enrichHolding s2s pm fm h).realtime.presentValue
      = some (p * h.fixed.qty) ∧
    (enrichHolding s2s pm fm h).realtime.gainLoss
      = some (p * h.fixed.qty - h.fixed.investment) ∧
    (enrichHolding s2s pm fm h).realtime.gainLossPercent
      = (if 0 ≤ p * h.fixed.qty - h.fixed.investment then "+" else "")
          ++ toFixed2Q
              ((p * h.fixed.qty - h.fixed.investment) / h.fixed.investment
                * 100)
          ++ "%" := by
  have hne : h.fixed.investment ≠ 0 := ne_of_gt hinv
  rw [enrich_realtime_of_price s2s pm fm h sc bse h1 h2 h3]
  refine ⟨?_, ?_, ?_, ?_⟩
  · simp [updatedRealtime, hp]
  · simp [updatedRealtime, hp, jmulQ]
  · simp [updatedRealtime, hp, jmulQ, jsubQ]
  · simp [updatedRealtime, hp, jmulQ, jsubQ, jdivQ, jmul, jge0,
      jsToFixed2, hinv, hne, decide_eq_true_eq]

/-- Witness for `gain_loss_arithmetic`: purchasePrice 100, qty 10,
investment 1000, fetched currentPrice 120 give presentValue 1200,
gainLoss 200, gainLossPercent "+20.00%". -/
theorem gain_loss_arithmetic_witness :
    (enrichHolding [("RELIANCE", "500325")] [("500325", stockA)] []
      holdingA).realtime.presentValue = some 1200 ∧
    (enrichHolding [("RELIANCE", "500325")] [("500325", stockA)] []
      holdingA).realtime.gainLoss = some 200 ∧
    (enrichHolding [("RELIANCE", "500325")] [("500325", stockA)] []
      holdingA).realtime.gainLossPercent = "+20.00%" := by
  have hth := gain_loss_arithmetic [("RELIANCE", "500325")]
    [("500325", stockA)] [] holdingA "500325" stockA 120 (by decide)
    (by decide) (by decide) (by decide) (by norm_num [holdingA])
  refine ⟨?_, ?_, ?_⟩
  · rw [hth.2.1]
    norm_num [holdingA]
  · rw [hth.2.2.1]
    norm_num [holdingA]
  · rw [hth.2.2.2]
    norm_num [holdingA]
    unfold toFixed2Q
    norm_num
    decide

/-- Claim C3 counterexample: with static investment 0 and a fetched price,
the recomputed gainLossPercent is "+0.00%", not the claimed "0.00%" — the
sign prefix is applied to the constant "0.00" branch as well. -/
theorem zero_investment_counterexample :
    (enrichHolding [("RELIANCE", "500325")] [("500325", stockA)] []
      holdingZeroInv).realtime.gainLossPercent = "+0.00%" ∧
    ("+0.00%" : String) ≠ "0.00%" := by
  constructor
  · rw [enrich_realtime_of_price [("RELIANCE", "500325")]
      [("500325", stockA)] [] holdingZeroInv "500325" stockA (by decide)
      (by decide) (by decide)]
    simp only [updatedRealtime, holdingZeroInv, holdingA, stockA, jmulQ,
      jsubQ, jge0, Option.map]
    norm_num
    decide
  · decide

/-- Claim C3 (amended): with static investment 0 (and a resolved scripcode
with available price data), the recomputed gainLossPercent is the constant
"0.00" with the usual sign prefix and percent sign: "+0.00%" whenever the
recomputed gainLoss (= presentValue) is finite and non-negative, and
"0.00%" only when it is negative or NaN. -/
theorem zero_investment_percent (s2s : List (String × String))
    (pm : List (String × BSEStockData))
    (fm : List (String × BSEFundamentalsData)) (h : Holding) (sc : String)
    (bse : BSEStockData)
    (h1 : mapGet s2s h.symbol = some sc) (h2 : sc ≠ "")
    (h3 : mapGet pm sc = some bse) (hinv : h.fixed.investment = 0) :
    (enrichHolding s2s pm fm h).realtime.gainLossPercent
      = (if jge0 (jsubQ (jmulQ bse.currentPrice h.fixed.qty)
          h.fixed.investment) then "+" else "") ++ "0.00%" := by
  rw [enrich_realtime_of_price s2s pm fm h sc bse h1 h2 h3]
  simp only [updatedRealtime, hinv]
  rw [if_neg (lt_irrefl 0)]
  cases hb : jge0 (jsubQ (jmulQ bse.currentPrice h.fixed.qty) 0) <;>
    simp [hb]

/-- Witness for `zero_investment_percent` at the concrete zero-investment
holding with fetched price 120. -/
theorem zero_investment_percent_witness :
    (enrichHolding [("RELIANCE", "500325")] [("500325", stockA)] []
      holdingZeroInv).realtime.gainLossPercent
      = (if jge0 (jsubQ (jmulQ stockA.currentPrice
          holdingZeroInv.fixed.qty) holdingZeroInv.fixed.investment)
        then "+" else "") ++ "0.00%" :=
  zero_investment_percent [("RELIANCE", "500325")] [("500325", stockA)] []
    holdingZeroInv "500325" stockA (by decide) (by decide) (by decide)
    (by decide)

/- ---------------------------------------------------------------------
Batch-partition lemmas.
--------------------------------------------------------------------- -/

theorem foldl_chunks {α β : Type} (f : β → α → β) (L : List (List α)) :
    ∀ b : β, L.foldl (fun acc l => l.foldl f acc) b = L.flatten.foldl f b := by
  induction L with
  | nil => intro b; rfl
  | cons hd tl ih =>
    intro b
    simp only [List.foldl_cons, List.flatten_cons, List.foldl_append, ih]

theorem chunks10_cons {α : Type} (l : List α) (h : l ≠ []) :
    chunks10 l = l.take 10 :: chunks10 (l.drop 10) := by
  unfold chunks10
  have hpos : 0 < l.length := List.length_pos.mpr h
  have h1 : (l.length + 9) / 10 = ((l.drop 10).length + 9) / 10 + 1 := by
    simp only [List.length_drop]
    omega
  rw [h1, List.range_succ_eq_map, List.map_cons, List.map_map]
  refine List.cons_eq_cons.mpr ⟨by simp, ?_⟩
  apply List.map_congr_left
  intro k _
  simp only [Function.comp_apply, Nat.succ_eq_add_one, List.drop_drop]
  rw [show 10 * (k + 1) = 10 + 10 * k from by ring]

theorem chunks10_flatten {α : Type} (l : List α) : (chunks10 l).flatten = l := by
  by_cases h : l = []
  · subst h
    simp [chunks10]
  · rw [chunks10_cons l h]
    simp only [List.flatten_cons]
    rw [chunks10_flatten (l.drop 10)]
    exact List.take_append_drop 10 l
termination_by l.length
decreasing_by
  simp only [List.length_drop]
  have := List.length_pos.mpr h
  omega

theorem chunks10_batches {α : Type} (l : List α) (c : List α)
    (hc : c ∈ chunks10 l) : c.length ≤ 10 ∧ c ≠ [] := by
  simp only [chunks10, List.mem_map, List.mem_range] at hc
  obtain ⟨k, hk, rfl⟩ := hc
  refine ⟨by simp, ?_⟩
  intro hnil
  have hlen : ((l.drop (10 * k)).take 10).length = 0 := by
    rw [hnil]
    rfl
  simp only [List.length_take, List.length_drop] at hlen
  omega

theorem mapGet_priceFold (env : NetEnv) (ids : List String)
    (m : List (String × BSEStockData)) (k : String) :
    mapGet (ids.foldl
      (fun m sc =>
        match fetchBSEData env sc with
        | some d => mapSet m sc d
        | none => m) m) k
      = if k ∈ ids ∧ (fetchBSEData env k).isSome then fetchBSEData env k
        else mapGet m k := by
  induction ids generalizing m with
  | nil => simp
  | cons a tl ih =>
    simp only [List.foldl_cons]
    rw [ih]
    by_cases hk : k ∈ tl ∧ (fetchBSEData env k).isSome
    · rw [if_pos hk, if_pos ⟨List.mem_cons_of_mem a hk.1, hk.2⟩]
    · rw [if_neg hk]
      cases hfa : fetchBSEData env a with
      | none =>
        by_cases hka : k = a
        · subst hka
          rw [if_neg (fun hc => by simp [hfa] at hc)]
        · rw [if_neg (fun hc => hk ⟨(List.mem_cons.mp hc.1).resolve_left hka,
            hc.2⟩)]
      | some d =>
        by_cases hka : k = a
        · subst hka
          rw [mapGet_mapSet, if_pos rfl,
            if_pos ⟨List.mem_cons_self k tl, by simp [hfa]⟩, hfa]
        · rw [mapGet_mapSet, if_neg hka,
            if_neg (fun hc => hk ⟨(List.mem_cons.mp hc.1).resolve_left hka,
              hc.2⟩)]

/-- Claim C7: `fetchMultipleBSEData` is a total function of its oracle (no
exception escapes), each identifier whose individual fetch fails is simply
absent from the result, and the returned mapping holds exactly the
identifiers whose fetch succeeded, each with its fetched record. -/
theorem fetchMany_partial_failure (env : NetEnv) (ids : List String)
    (k : String) :
    mapGet (fetchMultipleBSEData env ids) k
      = (if k ∈ ids then fetchBSEData env k else none) ∧
    (mapGet (fetchMultipleBSEData env ids) k ≠ none
      ↔ k ∈ ids ∧ fetchBSEData env k ≠ none) := by
  have hflat : fetchMultipleBSEData env ids
      = ids.foldl
        (fun m sc =>
          match fetchBSEData env sc with
          | some d => mapSet m sc d
          | none => m) [] := by
    unfold fetchMultipleBSEData fetchPriceBatch
    rw [foldl_chunks, chunks10_flatten]
  have hmain : mapGet (fetchMultipleBSEData env ids) k
      = (if k ∈ ids then fetchBSEData env k else none) := by
    rw [hflat, mapGet_priceFold]
    by_cases hmem : k ∈ ids
    · cases hf : fetchBSEData env k with
      | none => simp [hmem, hf, mapGet]
      | some d => simp [hmem, hf]
    · simp [hmem, mapGet]
  refine ⟨hmain, ?_⟩
  rw [hmain]
  by_cases hmem : k ∈ ids
  · simp [hmem]
  · simp [hmem]

theorem fetchSchedule_cons (l : List String) (h : l ≠ []) :
    fetchSchedule l
      = BatchEvent.batch (l.take 10) ::
          (if 10 < l.length then BatchEvent.delay :: fetchSchedule (l.drop 10)
           else []) := by
  unfold fetchSchedule
  have hpos : 0 < l.length := List.length_pos.mpr h
  have h1 : (l.length + 9) / 10 = ((l.drop 10).length + 9) / 10 + 1 := by
    simp only [List.length_drop]
    omega
  rw [h1, List.range_succ_eq_map, List.map_cons, List.map_map,
    List.flatten_cons]
  simp only [Nat.mul_zero, List.drop_zero, Nat.zero_add]
  by_cases h10 : 10 < l.length
  · rw [if_pos h10, if_pos h10]
    simp only [List.cons_append, List.singleton_append, List.nil_append]
    refine List.cons_eq_cons.mpr ⟨rfl, List.cons_eq_cons.mpr ⟨rfl, ?_⟩⟩
    congr 1
    apply List.map_congr_left
    intro k _
    simp only [Function.comp_apply, Nat.succ_eq_add_one, List.drop_drop,
      List.length_drop]
    rw [show 10 * (k + 1) = 10 + 10 * k from by ring]
    refine List.cons_eq_cons.mpr ⟨rfl, ?_⟩
    exact if_congr (by omega) rfl rfl
  · rw [if_neg h10, if_neg h10]
    have hd : (l.drop 10).length = 0 := by
      simp only [List.length_drop]
      omega
    simp [hd, if_neg h10]

theorem fetchSchedule_eq_intersperse (l : List String) (h : l ≠ []) :
    fetchSchedule l
      = List.intersperse BatchEvent.delay
          ((chunks10 l).map BatchEvent.batch) := by
  rw [fetchSchedule_cons l h, chunks10_cons l h]
  by_cases h10 : 10 < l.length
  · have hdrop : l.drop 10 ≠ [] := by
      intro hc
      have := congrArg List.length hc
      simp only [List.length_drop, List.length_nil] at this
      omega
    rw [if_pos h10, fetchSchedule_eq_intersperse (l.drop 10) hdrop,
      chunks10_cons (l.drop 10) hdrop, List.map_cons, List.map_cons,
      List.map_cons, List.intersperse_cons_cons]
  · rw [if_neg h10]
    have hd : l.drop 10 = [] := by
      apply List.eq_nil_of_length_eq_zero
      simp only [List.length_drop]
      omega
    rw [hd]
    simp [chunks10]
termination_by l.length
decreasing_by
  simp only [List.length_drop]
  have := List.length_pos.mpr h
  omega

/-- Claim C8: the fetch loop partitions the identifiers into consecutive
batches of at most 10 (each batch issued as one set of concurrent fetches),
with the fixed delay exactly between consecutive batches and none after the
final one — the schedule is the batch list interspersed with delays. -/
theorem batch_rate_limiting (ids : List String) (h : ids ≠ []) :
    fetchSchedule ids
      = List.intersperse BatchEvent.delay
          ((chunks10 ids).map BatchEvent.batch) ∧
    (∀ c ∈ chunks10 ids, c.length ≤ 10 ∧ c ≠ []) ∧
    (chunks10 ids).flatten = ids :=
  ⟨fetchSchedule_eq_intersperse ids h,
   fun c hc => chunks10_batches ids c hc,
   chunks10_flatten ids⟩

/-- Witness for `batch_rate_limiting`: 25 identifiers are issued as exactly
3 batches (10, 10, 5) with a delay only between batches 1-2 and 2-3. -/
theorem batch_rate_limiting_witness :
    ((List.range 25).map (fun n => toString n)) ≠ [] ∧
    fetchSchedule ((List.range 25).map (fun n => toString n))
      = List.intersperse BatchEvent.delay
          ((chunks10 ((List.range 25).map (fun n => toString n))).map
            BatchEvent.batch) ∧
    (chunks10 ((List.range 25).map (fun n => toString n))).length = 3 ∧
    fetchSchedule ((List.range 25).map (fun n => toString n))
      = [BatchEvent.batch
          (((List.range 25).map (fun n => toString n)).take 10),
         BatchEvent.delay,
         BatchEvent.batch
          ((((List.range 25).map (fun n => toString n)).drop 10).take 10),
         BatchEvent.delay,
         BatchEvent.batch
          (((List.range 25).map (fun n => toString n)).drop 20)] :=
  ⟨by decide,
   (batch_rate_limiting ((List.range 25).map (fun n => toString n))
     (by decide)).1,
   by decide, by decide⟩

theorem mapGet_buildSymbolToScripcode_skip
    (l : List (String × Option String)) (k : String)
    (hall : ∀ p ∈ l, p.1 = k → p.2 = none) :
    mapGet (buildSymbolToScripcode l) k = none := by
  suffices hgen : ∀ m : List (String × String), mapGet m k = none →
      mapGet (l.foldl
        (fun m p =>
          match p.2 with
          | some sc => if sc == "" then m else mapSet m p.1 sc
          | none => m) m) k = none by
    exact hgen [] rfl
  induction l with
  | nil => intro m hm; exact hm
  | cons hd tl ih =>
    intro m hm
    simp only [List.foldl_cons]
    apply ih (fun p hp => hall p (List.mem_cons_of_mem hd hp))
    cases hhd : hd.2 with
    | none => exact hm
    | some sc =>
      simp only
      by_cases hsc : (sc == "") = true
      · rw [if_pos hsc]
        exact hm
      · rw [if_neg hsc, mapGet_mapSet]
        rw [if_neg ?hne]
        · exact hm
        case hne =>
          intro hk
          have := hall hd (List.mem_cons_self hd tl) hk.symm
          rw [hhd] at this
          exact Option.noConfusion this

/-- A holding whose symbol fails to resolve is returned untouched by the
enrichment step. -/
theorem enrichHolding_unresolved (s2s : List (String × String))
    (pm : List (String × BSEStockData))
    (fm : List (String × BSEFundamentalsData)) (h : Holding)
    (hs : mapGet s2s h.symbol = none) :
    enrichHolding s2s pm fm h = h := by
  simp [enrichHolding, hs]

/-- Claim C9: a holding whose symbol fails to resolve passes through
`getPortfolioWithRealtimeData` unchanged and at its original position; the
output has one entry per static holding, in input order. -/
theorem unresolved_holding_unchanged (env : NetEnv)
    (holdings : List Holding) (i : ℕ) (h : Holding)
    (hget : holdings.get? i = some h)
    (hres : resolveBSEScripcode env (loadScripcodeCache env.scripFile)
      h.symbol = none) :
    (getPortfolioWithRealtimeData env holdings).get? i = some h ∧
    (getPortfolioWithRealtimeData env holdings).length = holdings.length := by
  have hkey : mapGet (aggSymbolToScripcode env holdings) h.symbol = none := by
    apply mapGet_buildSymbolToScripcode_skip
    intro p hp hpk
    simp only [aggResolved, List.mem_map] at hp
    obtain ⟨symbol, _, rfl⟩ := hp
    simp only at hpk
    rw [hpk] at *
    simpa using hres
  constructor
  · unfold getPortfolioWithRealtimeData
    rw [List.get?_map, hget, Option.map]
    rw [enrichHolding_unresolved _ _ _ h hkey]
  · unfold getPortfolioWithRealtimeData
    exact List.length_map holdings _

/-- Witness for `unresolved_holding_unchanged`: one static holding, failing
search, missing caches — the output is the input. -/
theorem unresolved_holding_unchanged_witness :
    [holdingA].get? 0 = some holdingA ∧
    resolveBSEScripcode envAllFail
      (loadScripcodeCache envAllFail.scripFile) holdingA.symbol = none ∧
    (getPortfolioWithRealtimeData envAllFail [holdingA]).get? 0
      = some holdingA :=
  ⟨rfl, by decide,
   (unresolved_holding_unchanged envAllFail [holdingA] 0 holdingA rfl
     (by decide)).1⟩

theorem getHolding_isSome (env : NetEnv) (holdings : List Holding)
    (symbol : String) (holding : Holding)
    (hf : holdings.find? (fun h => h.symbol == symbol) = some holding) :
    (getHoldingWithRealtimeData env holdings symbol).isSome = true := by
  simp only [getHoldingWithRealtimeData, hf]
  split
  · rfl
  · split
    · rfl
    · split
      · rfl
      · rfl

/-- Claim C10: `getHoldingWithRealtimeData` returns absent exactly when the
symbol is not among the static holdings; for a present symbol it always
returns a record, and when the symbol does not resolve — or resolves but
neither a cached/fetched price nor fundamentals are available — that record
is the static holding itself. -/
theorem single_holding_total (env : NetEnv) (holdings : List Holding)
    (symbol : String) :
    (getHoldingWithRealtimeData env holdings symbol = none
      ↔ ∀ h ∈ holdings, h.symbol ≠ symbol) ∧
    (∀ h : Holding, holdings.find? (fun x => x.symbol == symbol) = some h →
      resolveBSEScripcode env (loadScripcodeCache env.scripFile) h.symbol
        = none →
      getHoldingWithRealtimeData env holdings symbol = some h) ∧
    (∀ (h : Holding) (sc : String),
      holdings.find? (fun x => x.symbol == symbol) = some h →
      resolveBSEScripcode env (loadScripcodeCache env.scripFile) h.symbol
        = some sc →
      mapGet (loadPriceCache env.priceFile env.now) sc = none →
      fetchBSEData env sc = none →
      mapGet (getFundamentalsForBSEScripcodes env [sc]) sc = none →
      getHoldingWithRealtimeData env holdings symbol = some h) := by
  refine ⟨?_, ?_, ?_⟩
  · cases hf : holdings.find? (fun h => h.symbol == symbol) with
    | none =>
      have hnone : getHoldingWithRealtimeData env holdings symbol = none := by
        simp only [getHoldingWithRealtimeData, hf]
      simp only [List.find?_eq_none, beq_iff_eq] at hf
      exact iff_of_true hnone hf
    | some holding =>
      have hsome := getHolding_isSome env holdings symbol holding hf
      refine iff_of_false (fun hc => by rw [hc] at hsome; simp at hsome) ?_
      intro hall
      exact hall holding (List.mem_of_find?_eq_some hf)
        (by simpa using List.find?_some hf)
  · intro h hf hres
    simp only [getHoldingWithRealtimeData, hf, hres]
  · intro h sc hf hres hpc hfetch hfm
    simp only [getHoldingWithRealtimeData, hf, hres]
    by_cases hsc : (sc == "") = true
    · rw [if_pos hsc]
    · rw [if_neg hsc]
      simp only [hpc, hfetch, hfm]

/-- Witness for `single_holding_total`: with every oracle failing, a present
symbol returns the static holding and an absent symbol returns absent. -/
theorem single_holding_total_witness :
    getHoldingWithRealtimeData envAllFail [holdingA] "RELIANCE"
      = some holdingA ∧
    getHoldingWithRealtimeData envAllFail [holdingA] "TCS" = none :=
  ⟨(single_holding_total envAllFail [holdingA] "RELIANCE").2.1 holdingA
    (by decide) (by decide),
   (single_holding_total envAllFail [holdingA] "TCS").1.mpr (by decide)⟩
